import Mathlib

/-!
Verification of the authenticated-request pipeline and analysis helpers of
`src/app.py` (High Focus Sourcing Tool).  Python values flowing through the
program (JSON payloads, spreadsheet cells) are embedded as the inductive
type `JVal`; numeric amounts are embedded as `ℚ`; functions that can raise
return `Option`/`Except`.  Each definition mirrors one Python function of
the source file and is named after it.
-/

set_option maxHeartbeats 1000000

/-- A Python/JSON value: `None`, a number, a string, a bool, a list, or a
dict (association list, as produced by JSON parsing). -/
inductive JVal where
  | null : JVal
  | num (q : ℚ) : JVal
  | str (s : String) : JVal
  | bool (b : Bool) : JVal
  | arr (xs : List JVal) : JVal
  | obj (kvs : List (String × JVal)) : JVal

mutual

/-- Structural (Python `==`-style) equality test on `JVal`, used to model
membership tests such as `seller not in seen_sellers`. -/
def JVal.beq : JVal → JVal → Bool
  | .null, .null => true
  | .num a, .num b => a == b
  | .str a, .str b => a == b
  | .bool a, .bool b => a == b
  | .arr a, .arr b => JVal.beqArr a b
  | .obj a, .obj b => JVal.beqObj a b
  | _, _ => false

/-- Elementwise equality on lists of `JVal`. -/
def JVal.beqArr : List JVal → List JVal → Bool
  | [], [] => true
  | x :: xs, y :: ys => JVal.beq x y && JVal.beqArr xs ys
  | _, _ => false

/-- Elementwise equality on association lists of `JVal`. -/
def JVal.beqObj : List (String × JVal) → List (String × JVal) → Bool
  | [], [] => true
  | (k1, v1) :: xs, (k2, v2) :: ys => k1 == k2 && JVal.beq v1 v2 && JVal.beqObj xs ys
  | _, _ => false

end

/-- Membership of a value in a list of values, via `JVal.beq` (models the
Python `in` test on a collection of JSON values). -/
def jmem (v : JVal) (l : List JVal) : Bool := l.any (fun u => JVal.beq v u)

/-- Python truthiness of a value (`if seller:` / `sp or 0.0`). -/
def pyTruthy : JVal → Bool
  | .null => false
  | .num q => q != 0
  | .str s => s != ""
  | .bool b => b
  | .arr xs => !xs.isEmpty
  | .obj kvs => !kvs.isEmpty

/-- Python `float(x)` coercion on an embedded value: numbers convert to
themselves, booleans to 0/1, everything else raises (returns `none`).
Numeric-string coercion is not modelled; amounts in payloads are JSON
numbers. -/
def pyFloat : JVal → Option ℚ
  | .num q => some q
  | .bool b => some (if b then 1 else 0)
  | _ => none

/-- Python `int(x)` truncation toward zero on a rational. -/
def pyTrunc (q : ℚ) : ℤ :=
  if 0 ≤ q then ⌊q⌋ else ⌈q⌉

/-- `safe_get` (src/app.py lines 128-134): walk a key path through nested
dicts, returning `default` as soon as the current value is not a dict or
lacks the key. -/
def safe_get (d : JVal) (path : List String) (default : JVal) : JVal :=
  match path with
  | [] => d
  | k :: rest =>
    match d with
    | .obj kvs =>
      match kvs.lookup k with
      | some v => safe_get v rest default
      | none => default
    | _ => default

/-- Python `min` over a nonempty list, as a fold. -/
def listMin (x : ℚ) (xs : List ℚ) : ℚ := xs.foldl min x

/-- `recommend_ungate_units` (src/app.py lines 360-370): with a positive
case pack `cp`, buy `ceil(10 / cp)` cases, i.e. `int(cases * cp)` units;
otherwise 10 units.  The Python `float()` conversion cannot fail on the
numeric-or-absent argument, so the `except` branch is unreachable in the
embedding. -/
def recommend_ungate_units (case_pack : Option ℚ) : ℤ :=
  match case_pack with
  | some cp =>
    if 0 < cp then pyTrunc ((⌈(10 : ℚ) / cp⌉ : ℚ) * cp) else 10
  | none => 10

/-- The seller-set update of one iteration of the offers loop (src/app.py
lines 414-416): `seller = off.get("SellerId"); if seller and seller not in
seen_sellers: seen_sellers.add(seller)`.  The set is kept as a list in
first-insertion order. -/
def sellerStep (okvs : List (String × JVal)) (seen : List JVal) : List JVal :=
  match okvs.lookup "SellerId" with
  | some v => if pyTruthy v && !(jmem v seen) then seen ++ [v] else seen
  | none => seen

/-- The price-list update of one iteration of the offers loop (src/app.py
lines 417-423): read `ListingPrice.Amount` (default `None`) and
`Shipping.Amount` (default 0.0); when the listing price is not `None`,
append `float(lp) + float(sp or 0.0)`, swallowing conversion errors. -/
def priceStep (okvs : List (String × JVal)) (prices : List ℚ) : List ℚ :=
  let lp := safe_get (JVal.obj okvs) ["ListingPrice", "Amount"] JVal.null
  let spv := safe_get (JVal.obj okvs) ["Shipping", "Amount"] (JVal.num 0)
  match lp with
  | .null => prices
  | _ =>
    match pyFloat lp, pyFloat (if pyTruthy spv then spv else JVal.num 0) with
    | some a, some b => prices ++ [a + b]
    | _, _ => prices

/-- The per-offer loop of `extract_best_price_and_sellers` (src/app.py
lines 413-424), folded over the offers list.  Accumulates the landed
prices and the list of distinct truthy seller ids; returns `none` when an
offer is not a dict (the Python `off.get` would raise). -/
def offersLoop : List JVal → List ℚ → List JVal → Option (List ℚ × List JVal)
  | [], prices, seen => some (prices, seen)
  | off :: rest, prices, seen =>
    match off with
    | .obj okvs => offersLoop rest (priceStep okvs prices) (sellerStep okvs seen)
    | _ => none

/-- `extract_best_price_and_sellers` (src/app.py lines 402-428): read
`payload.Offers`; absent/empty/non-list offers give `(None, 0)`; otherwise
the minimum accumulated landed price (or `None`) and the count of distinct
truthy seller ids.  `none` overall models the `AttributeError` raised when
an intermediate value is not a dict. -/
def extract_best_price_and_sellers (d : List (String × JVal)) :
    Option (Option ℚ × Nat) :=
  let p := (d.lookup "payload").getD (JVal.obj [])
  match p with
  | .obj pk =>
    let offers := (pk.lookup "Offers").getD (JVal.arr [])
    match offers with
    | .arr offs =>
      if offs.isEmpty then some (none, 0)
      else
        match offersLoop offs [] [] with
        | some (prices, seen) =>
          some (match prices with
            | [] => (none, seen.length)
            | x :: xs => (some (listMin x xs), seen.length))
        | none => none
    | _ => some (none, 0)
  | _ => none

/-! ## LWA token fetch (`get_lwa_access_token`, src/app.py lines 52-64) -/

/-- The HTTP response to the token-fetch POST: status code, raw text body,
and the JSON parse of the body (`none` when `r.json()` would raise). -/
structure LwaHttpResponse where
  status : Nat
  text : String
  json : Option JVal

/-- The ways `get_lwa_access_token` can raise: the explicit
`RuntimeError(f"LWA token error (status): text")` on a non-200 status, a
JSON decode error from `r.json()`, a `TypeError` from subscripting a
non-dict JSON value, or the `KeyError` from `r.json()["access_token"]`. -/
inductive LwaFailure where
  | runtimeErr (status : Nat) (text : String) : LwaFailure
  | jsonDecodeErr : LwaFailure
  | typeErr : LwaFailure
  | keyErr (key : String) : LwaFailure
deriving DecidableEq

/-- The message string the source formats into the non-200 `RuntimeError`:
it interpolates the status code and the whole response text. -/
def lwa_error_message (status : Nat) (text : String) : String :=
  "LWA token error (" ++ toString status ++ "): " ++ text

/-- Which HTTP status code, if any, an `LwaFailure` carries. -/
def lwaCarriedStatus : LwaFailure → Option Nat
  | .runtimeErr s _ => some s
  | _ => none

/-- `get_lwa_access_token` (src/app.py lines 52-64): POST the refresh
grant; on non-200 raise with status and full body text, on 200 return
`r.json()["access_token"]` (raising when the body is not a JSON dict or
lacks the key).  The three credential arguments are the form fields of the
request body; the result never depends on them. -/
def get_lwa_access_token (client_id client_secret refresh_token : String)
    (resp : LwaHttpResponse) : Except LwaFailure JVal :=
  if resp.status ≠ 200 then
    .error (.runtimeErr resp.status resp.text)
  else
    match resp.json with
    | none => .error .jsonDecodeErr
    | some (.obj kvs) =>
      match kvs.lookup "access_token" with
      | some v => .ok v
      | none => .error (.keyErr "access_token")
    | some _ => .error .typeErr

/-- Boolean success test on the token-fetch result. -/
def lwaOk : Except LwaFailure JVal → Bool
  | .ok _ => true
  | .error _ => false

/-! ## STS role assumption (`assume_role_temp_creds`, src/app.py 67-81) -/

/-- The role-assumption request the source sends to STS: the role ARN and
the session name. -/
structure StsAssumeRoleRequest where
  roleArn : String
  roleSessionName : String
deriving DecidableEq

/-- The STS request issued by `assume_role_temp_creds` (src/app.py line
75): `sts.assume_role(RoleArn=role_arn, RoleSessionName="hf-spapi-session")`
— the session name is the same string literal on every invocation. -/
def sts_assume_role_request (role_arn : String) : StsAssumeRoleRequest :=
  { roleArn := role_arn, roleSessionName := "hf-spapi-session" }

/-! ## Auth bundle caching (`spapi_auth_bundle`, src/app.py 121-125)

The two fetchers are decorated `@st.cache_data(ttl=3300)`; the bundle is
decorated `@st.cache_resource`, which has no TTL.  The cache state is made
explicit.  The tokens' own lifetimes never appear in the source (the code
discards `expires_in` and the STS `Expiration`); the `expiresAt` fields
below are ghost values recording the spec lifetime of 3600 s from fetch
time, so that expiry claims can be stated. -/

/-- A bearer token with its ghost expiry (fetch time + 3600 s). -/
structure LwaToken where
  value : String
  expiresAt : ℚ
deriving DecidableEq

/-- Temporary STS credentials with their ghost expiry (fetch time +
3600 s, the STS default session duration). -/
structure TempCreds where
  accessKeyId : String
  secretAccessKey : String
  sessionToken : String
  expiresAt : ℚ
deriving DecidableEq

/-- The pair cached by `spapi_auth_bundle`. -/
structure AuthBundle where
  lwa : LwaToken
  temp : TempCreds
deriving DecidableEq

/-- The process-wide cache state: the `st.cache_data` entries for the two
fetchers (value with fetch time) and the `st.cache_resource` entry for the
bundle. -/
structure AuthCacheState where
  lwaCache : Option (LwaToken × ℚ)
  stsCache : Option (TempCreds × ℚ)
  bundleCache : Option AuthBundle
deriving DecidableEq

/-- A fresh LWA fetch at time `now` (ghost expiry 3600 s out). -/
def freshLwaToken (now : ℚ) : LwaToken :=
  { value := "lwa-access-token", expiresAt := now + 3600 }

/-- A fresh STS exchange at time `now` (ghost expiry 3600 s out). -/
def freshTempCreds (now : ℚ) : TempCreds :=
  { accessKeyId := "ASIA-temp-key", secretAccessKey := "temp-secret"
  , sessionToken := "temp-session-token", expiresAt := now + 3600 }

/-- `get_lwa_access_token` under its `@st.cache_data(ttl=3300)` decorator:
reuse the cached token while it is younger than 3300 s, else fetch. -/
def get_lwa_cached (st0 : AuthCacheState) (now : ℚ) : LwaToken × AuthCacheState :=
  match st0.lwaCache with
  | some (tok, t0) =>
    if now - t0 < 3300 then (tok, st0)
    else
      let tok2 := freshLwaToken now
      (tok2, { st0 with lwaCache := some (tok2, now) })
  | none =>
    let tok2 := freshLwaToken now
    (tok2, { st0 with lwaCache := some (tok2, now) })

/-- `assume_role_temp_creds` under its `@st.cache_data(ttl=3300)`
decorator. -/
def assume_role_cached (st0 : AuthCacheState) (now : ℚ) : TempCreds × AuthCacheState :=
  match st0.stsCache with
  | some (c, t0) =>
    if now - t0 < 3300 then (c, st0)
    else
      let c2 := freshTempCreds now
      (c2, { st0 with stsCache := some (c2, now) })
  | none =>
    let c2 := freshTempCreds now
    (c2, { st0 with stsCache := some (c2, now) })

/-- `spapi_auth_bundle` (src/app.py lines 121-125) under its
`@st.cache_resource` decorator: once a bundle has been built it is
returned unconditionally on every later call — no TTL, no expiry check —
otherwise the two (data-cached) fetchers run and the result is stored. -/
def spapi_auth_bundle (st0 : AuthCacheState) (now : ℚ) : AuthBundle × AuthCacheState :=
  match st0.bundleCache with
  | some b => (b, st0)
  | none =>
    let (l, st1) := get_lwa_cached st0 now
    let (t, st2) := assume_role_cached st1 now
    let b : AuthBundle := { lwa := l, temp := t }
    (b, { st2 with bundleCache := some b })

/-- The empty cache state at process start. -/
def emptyAuthCache : AuthCacheState :=
  { lwaCache := none, stsCache := none, bundleCache := none }

/-! ## Request signing (`RequestSigner`)

The source signs requests with the external botocore `SigV4Auth`
(src/app.py lines 101-107); that library's code is not part of this
repository, so the signer is modelled from the spec. -/

/-- The cryptographic and encoding primitives the signing algorithm is
built from, passed as explicit function arguments (they are pure byte
transformations supplied by a crypto library). -/
structure CryptoPrims where
  sha256hex : String → String
  hmacSha256 : String → String → String
  hmacSha256hex : String → String → String
  uriEncode : String → String

/-- The full input tuple of the signer. -/
structure SignInput where
  method : String
  path : String
  queryParams : List (String × String)
  headers : List (String × String)
  body : String
  accessKey : String
  secretKey : String
  sessionToken : String
  region : String
  serviceName : String
  timestamp : String

/-- Insert into a list sorted by the boolean order `le`. -/
def insertSortedBy {α : Type} (le : α → α → Bool) (x : α) : List α → List α
  | [] => [x]
  | y :: ys => if le x y then x :: y :: ys else y :: insertSortedBy le x ys

/-- Insertion sort by the boolean order `le`. -/
def sortBy {α : Type} (le : α → α → Bool) (xs : List α) : List α :=
  xs.foldr (insertSortedBy le) []

/-- Lexicographic string order as a boolean. -/
def strLe (a b : String) : Bool :=
  match compare a b with
  | .gt => false
  | _ => true

/-- Key-then-value order on string pairs. -/
def pairLe (a b : String × String) : Bool :=
  if a.1 == b.1 then strLe a.2 b.2 else strLe a.1 b.1

/-- Modelled from the spec: the canonical request of §4.3 step 1 —
uppercase method, encoded path, sorted encoded query string, lowercased
trimmed sorted headers, the signed-headers list, and the hex body hash.
The botocore implementation the source delegates to is absent from src/. -/
def canonicalRequest (prims : CryptoPrims) (inp : SignInput) : String :=
  let q := sortBy pairLe (inp.queryParams.map
    (fun kv => (prims.uriEncode kv.1, prims.uriEncode kv.2)))
  let canonicalQuery := String.intercalate "&" (q.map (fun kv => kv.1 ++ "=" ++ kv.2))
  let hs := sortBy pairLe (inp.headers.map
    (fun kv => (kv.1.toLower, kv.2.trim)))
  let canonicalHeaders := String.join (hs.map (fun kv => kv.1 ++ ":" ++ kv.2 ++ "\n"))
  let signedHeadersList := String.intercalate ";" (hs.map (fun kv => kv.1))
  inp.method.toUpper ++ "\n" ++ prims.uriEncode inp.path ++ "\n" ++
    canonicalQuery ++ "\n" ++ canonicalHeaders ++ "\n" ++ signedHeadersList ++
    "\n" ++ prims.sha256hex inp.body

/-- Modelled from the spec: the semicolon-joined sorted lowercased header
names (§4.3 step 1). -/
def signedHeadersOf (inp : SignInput) : String :=
  let hs := sortBy pairLe (inp.headers.map (fun kv => (kv.1.toLower, kv.2.trim)))
  String.intercalate ";" (hs.map (fun kv => kv.1))

/-- Modelled from the spec: the credential scope
`date/region/service/aws4_request` (§4.3 step 2); the date is the first 8
characters of the ISO-8601-basic timestamp. -/
def credentialScope (inp : SignInput) : String :=
  (inp.timestamp.take 8) ++ "/" ++ inp.region ++ "/" ++ inp.serviceName ++
    "/aws4_request"

/-- Modelled from the spec: the string to sign (§4.3 step 2). -/
def stringToSign (prims : CryptoPrims) (inp : SignInput) : String :=
  "AWS4-HMAC-SHA256" ++ "\n" ++ inp.timestamp ++ "\n" ++ credentialScope inp ++
    "\n" ++ prims.sha256hex (canonicalRequest prims inp)

/-- Modelled from the spec: the 4-level signing-key chain (§4.3 step 3). -/
def signingKey (prims : CryptoPrims) (inp : SignInput) : String :=
  prims.hmacSha256
    (prims.hmacSha256
      (prims.hmacSha256
        (prims.hmacSha256 ("AWS4" ++ inp.secretKey) (inp.timestamp.take 8))
        inp.region)
      inp.serviceName)
    "aws4_request"

/-- Modelled from the spec: `RequestSigner.sign` (§4.3) — the signed
header set: the authorization header assembled from scope, signed-headers
list and hex signature, the date header, and the session-token header when
a session token is present.  A pure function of `prims` and `inp`. -/
def sign (prims : CryptoPrims) (inp : SignInput) : List (String × String) :=
  let sig := prims.hmacSha256hex (signingKey prims inp) (stringToSign prims inp)
  [("Authorization",
      "AWS4-HMAC-SHA256 Credential=" ++ inp.accessKey ++ "/" ++
        credentialScope inp ++ ", SignedHeaders=" ++ signedHeadersOf inp ++
        ", Signature=" ++ sig),
    ("x-amz-date", inp.timestamp)] ++
    (if inp.sessionToken == "" then [] else
      [("x-amz-security-token", inp.sessionToken)])

/-! ## `spapi_request` and `catalog_item_by_asin` (src/app.py 84-118, 140-156) -/

/-- What the HTTP transport does on one send: an HTTP response (status,
raw text, JSON parse of the text when it parses) or a network-level
failure (a `requests` exception). -/
inductive TransportResult where
  | httpResp (status : Nat) (text : String) (json : Option JVal) : TransportResult
  | netError (msg : String) : TransportResult

/-- `payload = r.json() if r.text else {}` with the `except` fallback
`{"raw": r.text}` (src/app.py lines 113-116). -/
def parse_payload (text : String) (json : Option JVal) : JVal :=
  if text == "" then JVal.obj []
  else
    match json with
    | some v => v
    | none => JVal.obj [("raw", JVal.str text)]

/-- The outcome of `spapi_request`: the status/payload pair (or a
propagated network exception) together with the number of HTTP send
attempts performed. -/
structure SpapiOutcome where
  result : Except String (Nat × JVal)
  attempts : Nat

/-- `spapi_request` (src/app.py lines 84-118): build the signed request,
send it exactly once through the transport (`s.send(prepared)` appears
once and in no loop), and return the status code with the parsed payload;
a network exception propagates.  The transport is indexed by attempt
number so that retry claims can be stated; only attempt 0 is ever
consulted. -/
def spapi_request (transport : Nat → TransportResult) : SpapiOutcome :=
  { attempts := 1
  , result :=
      match transport 0 with
      | .netError m => .error m
      | .httpResp s text json => .ok (s, parse_payload text json) }

/-- A failure escaping `catalog_item_by_asin`: a propagated network
exception or the `RuntimeError(f"Catalog item error (status): payload")`
raised on `status >= 400`. -/
inductive CallFailure where
  | netErr (msg : String) : CallFailure
  | runtimeErr (status : Nat) (payload : JVal) : CallFailure

/-- The outcome of `catalog_item_by_asin`: payload or failure, with the
attempt count inherited from `spapi_request`. -/
structure CatalogResult where
  result : Except CallFailure JVal
  attempts : Nat

/-- `catalog_item_by_asin` (src/app.py lines 140-156): one
`spapi_request`; any status at or above 400 raises carrying the status and
the parsed payload, otherwise the payload is returned.  No branch retries. -/
def catalog_item_by_asin (transport : Nat → TransportResult) : CatalogResult :=
  let r := spapi_request transport
  { attempts := r.attempts
  , result :=
      match r.result with
      | .error m => .error (.netErr m)
      | .ok (s, payload) =>
        if 400 ≤ s then .error (.runtimeErr s payload) else .ok payload }

/-! ## Bulk row loop (src/app.py lines 644-723) -/

/-- The fields of `analyze_product`'s result that drive the bulk loop's
classification. -/
structure AnalysisOut where
  restrictionStatus : String
  profit : Option ℚ
deriving DecidableEq

/-- An observable event of the bulk loop: an invocation of
`analyze_product` for a row (which performs that row's API requests), or a
sleep of some duration.  The sleep constructor exists so pacing claims can
be stated; the source's loop body contains no sleep call. -/
inductive BulkEvent where
  | analyzeCall (i : Nat) : BulkEvent
  | sleepMs (ms : Nat) : BulkEvent
deriving DecidableEq

/-- The loop's accumulators (`results`, `eliminated`, `ungate`, `buy`,
src/app.py lines 636-639) plus the event trace.  Eliminated entries are
recorded as row index and reason string. -/
structure BulkState where
  results : List (Nat × AnalysisOut)
  eliminated : List (Nat × String)
  ungate : List (Nat × AnalysisOut)
  buy : List (Nat × AnalysisOut)
  trace : List BulkEvent
deriving DecidableEq

/-- The state before the first row. -/
def emptyBulkState : BulkState :=
  { results := [], eliminated := [], ungate := [], buy := [], trace := [] }

/-- One iteration of the bulk loop body (src/app.py lines 644-723) for row
`row` at index `i`.  `getCost` models `float(row.get(cost_col))` with its
`try/except` (`none` is the exception); `getIdent` models the identifier
extraction (normalized, possibly empty); `analyze` models
`analyze_product` (`Except.error` is a raised exception, whose string is
the recorded reason). -/
def bulkStep {Row : Type} (getCost : Row → Option ℚ) (getIdent : Row → String)
    (analyze : Row → Except String AnalysisOut) (profitMin : ℚ)
    (i : Nat) (row : Row) (st : BulkState) : BulkState :=
  match getCost row with
  | none => { st with eliminated := st.eliminated ++ [(i, "Missing/invalid cost")] }
  | some _ =>
    if getIdent row == "" then
      { st with eliminated := st.eliminated ++ [(i, "No ASIN/UPC/EAN found")] }
    else
      let st1 := { st with trace := st.trace ++ [BulkEvent.analyzeCall i] }
      match analyze row with
      | .error e => { st1 with eliminated := st1.eliminated ++ [(i, e)] }
      | .ok out =>
        let st2 := { st1 with results := st1.results ++ [(i, out)] }
        if out.restrictionStatus == "RESTRICTED" then
          { st2 with eliminated := st2.eliminated ++ [(i, "RESTRICTED")] }
        else if out.restrictionStatus == "GATED" then
          { st2 with ungate := st2.ungate ++ [(i, out)] }
        else
          match out.profit with
          | some p =>
            if profitMin ≤ p then { st2 with buy := st2.buy ++ [(i, out)] }
            else { st2 with eliminated :=
              st2.eliminated ++ [(i, "Not profitable or missing price/fees")] }
          | none =>
            { st2 with eliminated :=
              st2.eliminated ++ [(i, "Not profitable or missing price/fees")] }

/-- The bulk loop from index `i` over the remaining rows. -/
def bulkGo {Row : Type} (getCost : Row → Option ℚ) (getIdent : Row → String)
    (analyze : Row → Except String AnalysisOut) (profitMin : ℚ) :
    Nat → List Row → BulkState → BulkState
  | _, [], st => st
  | i, r :: rs, st =>
    bulkGo getCost getIdent analyze profitMin (i + 1) rs
      (bulkStep getCost getIdent analyze profitMin i r st)

/-- The whole "Run Bulk Sourcing" loop (src/app.py lines 644-723) over the
prepared rows. -/
def processBulk {Row : Type} (getCost : Row → Option ℚ) (getIdent : Row → String)
    (analyze : Row → Except String AnalysisOut) (profitMin : ℚ)
    (rows : List Row) : BulkState :=
  bulkGo getCost getIdent analyze profitMin 0 rows emptyBulkState

/-- A row index is recorded in the final state when it appears in one of
the three output buckets. -/
def rowRecorded (k : Nat) (st : BulkState) : Prop :=
  (∃ s, (k, s) ∈ st.eliminated) ∨ (∃ o, (k, o) ∈ st.ungate) ∨
    (∃ o, (k, o) ∈ st.buy)

/-- The indices of the rows that reach the `analyze_product` call (valid
cost and nonempty identifier), starting from index `i`. -/
def analyzedIndices {Row : Type} (getCost : Row → Option ℚ)
    (getIdent : Row → String) : Nat → List Row → List Nat
  | _, [] => []
  | i, r :: rs =>
    if (getCost r).isSome && !(getIdent r == "") then
      i :: analyzedIndices getCost getIdent (i + 1) rs
    else analyzedIndices getCost getIdent (i + 1) rs

/-! ## Claim-side formulations for the price/seller extraction

These definitions follow the wording of the specification ("lowest total
landed price", "number of distinct SellerId values") rather than the
source's loop; they are compared against
`extract_best_price_and_sellers`. -/

/-- Claim-side: the landed price of one offer — listing amount plus
shipping amount (missing or falsy shipping treated as 0), defined when the
conversions succeed. -/
def claimOfferPrice (off : JVal) : Option ℚ :=
  match pyFloat (safe_get off ["ListingPrice", "Amount"] JVal.null),
      pyFloat
        (let spv := safe_get off ["Shipping", "Amount"] (JVal.num 0)
         if pyTruthy spv then spv else JVal.num 0) with
  | some a, some b => some (a + b)
  | _, _ => none

/-- Claim-side: the lowest landed price over the offers, when any offer
has one. -/
def claimBestPrice (offs : List JVal) : Option ℚ :=
  match offs.filterMap claimOfferPrice with
  | [] => none
  | x :: xs => some (listMin x xs)

/-- Claim-side: the truthy SellerId of an offer, when it has one. -/
def claimTruthySeller (off : JVal) : Option JVal :=
  match off with
  | .obj okvs =>
    match okvs.lookup "SellerId" with
    | some v => if pyTruthy v then some v else none
    | none => none
  | _ => none

/-- Keep-first deduplication of a value list, under `JVal.beq`. -/
def dedupKF : List JVal → List JVal
  | [] => []
  | x :: xs => x :: dedupKF (xs.filter (fun y => !(JVal.beq y x)))
termination_by l => l.length
decreasing_by
  simp only [List.length_cons]
  exact Nat.lt_succ_of_le (List.length_filter_le _ _)

/-- Claim-side (amended): the number of distinct truthy SellerId values
among the offers. -/
def claimSellerCount (offs : List JVal) : Nat :=
  (dedupKF (offs.filterMap claimTruthySeller)).length

/-- Claim-side (as written): every SellerId value present on an offer,
truthy or not. -/
def claimSellerValuesAll (offs : List JVal) : List JVal :=
  offs.filterMap (fun off =>
    match off with
    | .obj okvs => okvs.lookup "SellerId"
    | _ => none)

/-- Claim-side (as written): the number of distinct SellerId values among
the offers. -/
def claimDistinctSellerCount (offs : List JVal) : Nat :=
  (dedupKF (claimSellerValuesAll offs)).length

/-- Proof helper: insert a (possibly absent) seller id into the seen list
if not already present, as the loop body does. -/
def insertSeen (seen : List JVal) (o : Option JVal) : List JVal :=
  match o with
  | some v => if jmem v seen then seen else seen ++ [v]
  | none => seen

/-- Proof helper: the seller-accumulation part of the offers loop in
isolation. -/
def sellerAccum (seen : List JVal) : List JVal → List JVal
  | [] => seen
  | off :: rest => sellerAccum (insertSeen seen (claimTruthySeller off)) rest

/-- Proof helper: seller accumulation over a plain value list. -/
def foldIns (seen : List JVal) : List JVal → List JVal
  | [] => seen
  | v :: vs => foldIns (insertSeen seen (some v)) vs

/-- An embedded value that is a dict. -/
def IsObj : JVal → Prop
  | .obj _ => True
  | _ => False

/-! ## Theorems -/

/-- C1 counterexample: against a transport that always answers HTTP 500,
`catalog_item_by_asin` performs exactly one send attempt — not
`maxRetries` (default 3 or 4) — and raises a terminal error at once, so
the claimed retry loop does not exist. -/
theorem C1_counterexample :
    catalog_item_by_asin
        (fun _ => TransportResult.httpResp 500 "err"
          (some (JVal.obj [("code", JVal.str "InternalFailure")]))) =
      { result := .error (.runtimeErr 500
          (JVal.obj [("code", JVal.str "InternalFailure")])), attempts := 1 }
    ∧ (1 : Nat) ≠ 3 ∧ (1 : Nat) ≠ 4 := by
  refine ⟨rfl, by norm_num, by norm_num⟩

/-- C1 amended: for every transport whose first answer has status ≥ 400
(in particular a permanent 500), the client makes exactly one attempt and
immediately raises a terminal `RuntimeError` carrying the status and the
parsed payload; there is no retry, no backoff, and no `maxRetries`
parameter in the source. -/
theorem spapi_single_attempt_terminal (transport : Nat → TransportResult)
    (s : Nat) (text : String) (json : Option JVal)
    (h : transport 0 = .httpResp s text json) (hs : 400 ≤ s) :
    (catalog_item_by_asin transport).attempts = 1 ∧
      (catalog_item_by_asin transport).result =
        .error (.runtimeErr s (parse_payload text json)) := by
  unfold catalog_item_by_asin spapi_request
  rw [h]
  simp [hs]

/-- Witness for `spapi_single_attempt_terminal` at a concrete 503
transport. -/
theorem spapi_single_attempt_terminal_witness :
    (catalog_item_by_asin (fun _ => TransportResult.httpResp 503 "busy" none)).attempts = 1 ∧
      (catalog_item_by_asin (fun _ => TransportResult.httpResp 503 "busy" none)).result =
        .error (.runtimeErr 503 (parse_payload "busy" none)) :=
  spapi_single_attempt_terminal _ 503 "busy" none rfl (by norm_num)

/-- C4: a first response with a 4xx status other than 429 makes the call
fail after exactly one send attempt, surfacing the status code and the
parsed error body. -/
theorem catalog_terminal_4xx_no_retry (transport : Nat → TransportResult)
    (s : Nat) (text : String) (json : Option JVal)
    (h : transport 0 = .httpResp s text json)
    (h4 : 400 ≤ s) (h5 : s < 500) (h429 : s ≠ 429) :
    catalog_item_by_asin transport =
      { result := .error (.runtimeErr s (parse_payload text json)), attempts := 1 } := by
  unfold catalog_item_by_asin spapi_request
  rw [h]
  simp [h4]

/-- Witness for `catalog_terminal_4xx_no_retry` at a concrete 403
response. -/
theorem catalog_terminal_4xx_no_retry_witness :
    catalog_item_by_asin
        (fun _ => TransportResult.httpResp 403 "forbidden"
          (some (JVal.obj [("errors", JVal.str "Unauthorized")]))) =
      { result := .error (.runtimeErr 403 (parse_payload "forbidden"
          (some (JVal.obj [("errors", JVal.str "Unauthorized")])))), attempts := 1 } :=
  catalog_terminal_4xx_no_retry _ 403 _ _ rfl (by norm_num) (by norm_num) (by norm_num)

/-- C2 counterexample: build the auth bundle at time 0 (ghost token expiry
3600), then call again at time 4000: the cached bundle — whose token
expiry 3600 lies in the past — is returned and attached, and the cache
state is unchanged, i.e. no fresh fetch is triggered. -/
theorem C2_counterexample :
    (spapi_auth_bundle (spapi_auth_bundle emptyAuthCache 0).2 4000).1.lwa.expiresAt = 3600
    ∧ (3600 : ℚ) < 4000
    ∧ (spapi_auth_bundle (spapi_auth_bundle emptyAuthCache 0).2 4000).2 =
        (spapi_auth_bundle emptyAuthCache 0).2 := by
  refine ⟨by norm_num [spapi_auth_bundle, emptyAuthCache, get_lwa_cached,
    assume_role_cached, freshLwaToken, freshTempCreds], by norm_num, rfl⟩

/-- C2 amended: the `st.cache_resource` bundle cache has no TTL and no
expiry check — once a bundle is cached, every later call returns it
unchanged regardless of the current time, so tokens and credentials are
reused past their expiry and no fresh fetch is triggered. -/
theorem spapi_auth_bundle_reuses_cached (st0 : AuthCacheState) (now : ℚ)
    (b : AuthBundle) (h : st0.bundleCache = some b) :
    spapi_auth_bundle st0 now = (b, st0) := by
  unfold spapi_auth_bundle
  rw [h]

/-- Witness for `spapi_auth_bundle_reuses_cached`: a cached bundle whose
ghost expiry 0 is in the past at time 100 is still returned unchanged. -/
theorem spapi_auth_bundle_reuses_cached_witness :
    spapi_auth_bundle
        { lwaCache := none, stsCache := none
        , bundleCache := some
            { lwa := { value := "stale", expiresAt := 0 }
            , temp := { accessKeyId := "k", secretAccessKey := "s"
                      , sessionToken := "t", expiresAt := 0 } } } 100 =
      ({ lwa := { value := "stale", expiresAt := 0 }
       , temp := { accessKeyId := "k", secretAccessKey := "s"
                 , sessionToken := "t", expiresAt := 0 } },
       { lwaCache := none, stsCache := none
       , bundleCache := some
           { lwa := { value := "stale", expiresAt := 0 }
           , temp := { accessKeyId := "k", secretAccessKey := "s"
                     , sessionToken := "t", expiresAt := 0 } } })
    ∧ (0 : ℚ) < 100 :=
  ⟨spapi_auth_bundle_reuses_cached _ 100 _ rfl, by norm_num⟩

/-- C3 counterexample: a 200 response whose JSON body lacks the
access-token field fails with a bare `KeyError` that carries neither the
status code nor any copy of the response body, contrary to the claim that
the error carries the status code and a truncated body. -/
theorem C3_counterexample :
    get_lwa_access_token "cid" "csec" "rtok"
        { status := 200, text := "\x7b\x7d", json := some (JVal.obj []) } =
      .error (.keyErr "access_token")
    ∧ lwaCarriedStatus (.keyErr "access_token") = none := by
  exact ⟨rfl, rfl⟩

/-- C3 amended: `get_lwa_access_token` fails exactly when the status is
not 200 or the 200 body lacks the access-token field; a non-200 failure
carries the status code and the full (untruncated) response body; a
missing-field failure is a `KeyError` carrying neither; and no outcome
depends on the request body, which holds the refresh secret. -/
theorem get_lwa_access_token_spec :
    (∀ ci cs rt resp, resp.status ≠ 200 →
        get_lwa_access_token ci cs rt resp = .error (.runtimeErr resp.status resp.text))
    ∧ (∀ ci cs rt resp kvs, resp.status = 200 → resp.json = some (JVal.obj kvs) →
        kvs.lookup "access_token" = none →
        get_lwa_access_token ci cs rt resp = .error (.keyErr "access_token"))
    ∧ (∀ ci cs rt resp, lwaOk (get_lwa_access_token ci cs rt resp) = true ↔
        (resp.status = 200 ∧ ∃ kvs v, resp.json = some (JVal.obj kvs) ∧
          kvs.lookup "access_token" = some v))
    ∧ (∀ c1 s1 r1 c2 s2 r2 resp,
        get_lwa_access_token c1 s1 r1 resp = get_lwa_access_token c2 s2 r2 resp) := by
  refine ⟨?_, ?_, ?_, ?_⟩
  · intro ci cs rt resp h
    unfold get_lwa_access_token
    rw [if_pos h]
  · intro ci cs rt resp kvs h hj hl
    unfold get_lwa_access_token
    rw [if_neg (by omega), hj]
    simp [hl]
  · intro ci cs rt resp
    unfold get_lwa_access_token
    by_cases h : resp.status = 200
    · simp only [h, ne_eq, not_true_eq_false, if_false]
      cases hj : resp.json with
      | none => simp [lwaOk, hj, h]
      | some v =>
        cases v with
        | obj kvs =>
          cases hl : kvs.lookup "access_token" with
          | none => simp [lwaOk, hj, hl, h]
          | some w => simp [lwaOk, hj, hl, h]
        | null => simp [lwaOk, hj, h]
        | num q => simp [lwaOk, hj, h]
        | str s => simp [lwaOk, hj, h]
        | bool b => simp [lwaOk, hj, h]
        | arr xs => simp [lwaOk, hj, h]
    · simp [h, lwaOk]
  · intro c1 s1 r1 c2 s2 r2 resp
    rfl

/-- Witness for `get_lwa_access_token_spec`: the non-200 branch at a
concrete 404 response and the missing-field branch at a concrete 200
response. -/
theorem get_lwa_access_token_spec_witness :
    get_lwa_access_token "ci" "cs" "rt" { status := 404, text := "denied", json := none } =
      .error (.runtimeErr 404 "denied")
    ∧ get_lwa_access_token "ci" "cs" "rt"
        { status := 200, text := "ok", json := some (JVal.obj [("scope", JVal.str "x")]) } =
      .error (.keyErr "access_token") :=
  ⟨get_lwa_access_token_spec.1 "ci" "cs" "rt" _ (by norm_num),
   get_lwa_access_token_spec.2.1 "ci" "cs" "rt" _ _ rfl rfl rfl⟩

/-- C5: the modelled `sign` is a pure function — two invocations on equal
input tuples (method, URL, query, headers, body, credentials, region,
service, timestamp) produce byte-identical signed headers. -/
theorem sign_deterministic (prims : CryptoPrims) (inp1 inp2 : SignInput)
    (h : inp1 = inp2) : sign prims inp1 = sign prims inp2 := by
  rw [h]

/-- Witness for `sign_deterministic` at a concrete input. -/
theorem sign_deterministic_witness :
    sign
        { sha256hex := fun s => s, hmacSha256 := fun k m => k ++ m
        , hmacSha256hex := fun k m => k ++ m, uriEncode := fun s => s }
        { method := "get", path := "/catalog/2022-04-01/items/B00TESTASIN"
        , queryParams := [("marketplaceIds", "ATVPDKIKX0DER")]
        , headers := [("x-amz-access-token", "tok")], body := ""
        , accessKey := "AK", secretKey := "SK", sessionToken := "ST"
        , region := "us-east-1", serviceName := "execute-api"
        , timestamp := "20260101T000000Z" } =
      sign
        { sha256hex := fun s => s, hmacSha256 := fun k m => k ++ m
        , hmacSha256hex := fun k m => k ++ m, uriEncode := fun s => s }
        { method := "get", path := "/catalog/2022-04-01/items/B00TESTASIN"
        , queryParams := [("marketplaceIds", "ATVPDKIKX0DER")]
        , headers := [("x-amz-access-token", "tok")], body := ""
        , accessKey := "AK", secretKey := "SK", sessionToken := "ST"
        , region := "us-east-1", serviceName := "execute-api"
        , timestamp := "20260101T000000Z" } :=
  sign_deterministic _ _ _ rfl

/-- C6 counterexample: two invocations of the credential exchange — even
with different role ARNs — send the same session name to STS, so session
names are not unique per exchange. -/
theorem C6_counterexample :
    (sts_assume_role_request "arn:aws:iam::111111111111:role/SPAPIRole").roleSessionName =
      (sts_assume_role_request "arn:aws:iam::222222222222:role/OtherRole").roleSessionName := by
  rfl

/-- C6 amended: the session name passed to STS is the fixed string literal
`hf-spapi-session` on every exchange — no time- or randomness-derived
suffix exists in the source. -/
theorem sts_session_name_constant (role_arn : String) :
    (sts_assume_role_request role_arn).roleSessionName = "hf-spapi-session" := by
  rfl

/-- C10: for a positive case pack `cp` the function returns
`int(ceil(10 / cp) * cp)` where `ceil(10 / cp)` is the least integer
number of cases whose total units reach 10; for an absent or non-positive
case pack it returns exactly 10.  The function is total (never raises). -/
theorem recommend_ungate_units_spec (cp : ℚ) (hpos : 0 < cp) :
    recommend_ungate_units (some cp) = pyTrunc ((⌈(10 : ℚ) / cp⌉ : ℚ) * cp)
    ∧ (10 : ℚ) ≤ (⌈(10 : ℚ) / cp⌉ : ℚ) * cp
    ∧ (∀ m : ℤ, (10 : ℚ) ≤ (m : ℚ) * cp → ⌈(10 : ℚ) / cp⌉ ≤ m)
    ∧ recommend_ungate_units none = 10
    ∧ (∀ cq : ℚ, cq ≤ 0 → recommend_ungate_units (some cq) = 10) := by
  refine ⟨?_, ?_, ?_, rfl, ?_⟩
  · show (if 0 < cp then pyTrunc ((⌈(10 : ℚ) / cp⌉ : ℚ) * cp) else 10) =
      pyTrunc ((⌈(10 : ℚ) / cp⌉ : ℚ) * cp)
    exact if_pos hpos
  · calc (10 : ℚ) = (10 / cp) * cp := by
          rw [div_mul_cancel₀]
          exact ne_of_gt hpos
      _ ≤ (⌈(10 : ℚ) / cp⌉ : ℚ) * cp :=
          mul_le_mul_of_nonneg_right (Int.le_ceil _) (le_of_lt hpos)
  · intro m hm
    apply Int.ceil_le.mpr
    rw [div_le_iff₀ hpos]
    exact hm
  · intro cq h
    show (if 0 < cq then pyTrunc ((⌈(10 : ℚ) / cq⌉ : ℚ) * cq) else 10) = 10
    exact if_neg (not_lt.mpr h)

/-- Witness for `recommend_ungate_units_spec`: case pack 3 yields 12
units; an absent case pack yields 10. -/
theorem recommend_ungate_units_spec_witness :
    recommend_ungate_units (some 3) = 12 ∧ recommend_ungate_units none = 10 := by
  have h := recommend_ungate_units_spec 3 (by norm_num)
  refine ⟨?_, h.2.2.2.1⟩
  rw [h.1]
  have hc : (⌈(10 : ℚ) / 3⌉ : ℤ) = 4 := by
    rw [Int.ceil_eq_iff]
    constructor <;> norm_num
  rw [hc]
  norm_num [pyTrunc]

/-- The trace effect of one bulk-loop iteration: exactly one
`analyzeCall` event when the row reaches `analyze_product`, nothing
otherwise — in particular never a sleep. -/
theorem bulkStep_trace {Row : Type} (gc : Row → Option ℚ) (gi : Row → String)
    (an : Row → Except String AnalysisOut) (pm : ℚ) (i : Nat) (r : Row)
    (st : BulkState) :
    (bulkStep gc gi an pm i r st).trace =
      st.trace ++
        (if (gc r).isSome && !(gi r == "") then [BulkEvent.analyzeCall i] else []) := by
  unfold bulkStep
  repeat' split
  all_goals simp_all

/-- The trace of the bulk loop from index `i`: the `analyzeCall` events of
the qualifying rows, in row order, appended to the incoming trace. -/
theorem bulkGo_trace {Row : Type} (gc : Row → Option ℚ) (gi : Row → String)
    (an : Row → Except String AnalysisOut) (pm : ℚ) (rows : List Row) :
    ∀ (i : Nat) (st : BulkState),
      (bulkGo gc gi an pm i rows st).trace =
        st.trace ++ (analyzedIndices gc gi i rows).map BulkEvent.analyzeCall := by
  induction rows with
  | nil => intro i st; simp [bulkGo, analyzedIndices]
  | cons r rs ih =>
    intro i st
    show (bulkGo gc gi an pm (i + 1) rs (bulkStep gc gi an pm i r st)).trace = _
    rw [ih (i + 1) (bulkStep gc gi an pm i r st), bulkStep_trace]
    by_cases h : ((gc r).isSome && !(gi r == "")) = true
    · simp [analyzedIndices, h, List.append_assoc]
    · simp [analyzedIndices, h, List.append_assoc]

/-- C9 counterexample: a concrete two-row bulk run produces the trace
`[analyzeCall 0, analyzeCall 1]` — the two rows' API work happens back to
back with no sleep event of any duration between them, so no fixed
150-250 ms inter-call delay is inserted. -/
theorem C9_counterexample :
    (processBulk (fun _ : Unit => some (1 : ℚ)) (fun _ => "B00TESTASIN")
        (fun _ => Except.ok { restrictionStatus := "OK", profit := some 5 })
        3 [(), ()]).trace =
      [BulkEvent.analyzeCall 0, BulkEvent.analyzeCall 1]
    ∧ ((processBulk (fun _ : Unit => some (1 : ℚ)) (fun _ => "B00TESTASIN")
        (fun _ => Except.ok { restrictionStatus := "OK", profit := some 5 })
        3 [(), ()]).trace.all
          (fun e => match e with
            | BulkEvent.sleepMs _ => false
            | BulkEvent.analyzeCall _ => true)) = true := by
  exact ⟨by decide, by decide⟩

/-- C9 amended: the bulk loop processes rows strictly one at a time in row
order — its trace is exactly the ordered `analyzeCall` events of the
qualifying rows — and no inter-call delay (no sleep event) is ever
inserted between consecutive rows' API requests. -/
theorem bulk_sequential_no_delay {Row : Type} (gc : Row → Option ℚ)
    (gi : Row → String) (an : Row → Except String AnalysisOut) (pm : ℚ)
    (rows : List Row) :
    (processBulk gc gi an pm rows).trace =
      (analyzedIndices gc gi 0 rows).map BulkEvent.analyzeCall := by
  unfold processBulk
  rw [bulkGo_trace]
  simp [emptyBulkState]

/-- One bulk-loop iteration only appends to the three output buckets:
whatever was recorded stays recorded. -/
theorem bulkStep_buckets_mono {Row : Type} (gc : Row → Option ℚ)
    (gi : Row → String) (an : Row → Except String AnalysisOut) (pm : ℚ)
    (i : Nat) (r : Row) (st : BulkState) :
    (∀ x, x ∈ st.eliminated → x ∈ (bulkStep gc gi an pm i r st).eliminated)
    ∧ (∀ x, x ∈ st.ungate → x ∈ (bulkStep gc gi an pm i r st).ungate)
    ∧ (∀ x, x ∈ st.buy → x ∈ (bulkStep gc gi an pm i r st).buy) := by
  unfold bulkStep
  repeat' split
  all_goals simp_all [List.mem_append]

/-- Every row that a bulk-loop iteration handles is recorded in exactly
one of the three buckets (eliminated with a reason, ungate, or buy). -/
theorem bulkStep_records {Row : Type} (gc : Row → Option ℚ)
    (gi : Row → String) (an : Row → Except String AnalysisOut) (pm : ℚ)
    (i : Nat) (r : Row) (st : BulkState) :
    rowRecorded i (bulkStep gc gi an pm i r st) := by
  unfold rowRecorded bulkStep
  repeat' split
  all_goals simp_all [List.mem_append]

/-- The bulk loop only appends to the three buckets. -/
theorem bulkGo_buckets_mono {Row : Type} (gc : Row → Option ℚ)
    (gi : Row → String) (an : Row → Except String AnalysisOut) (pm : ℚ)
    (rows : List Row) :
    ∀ (i : Nat) (st : BulkState),
      (∀ x, x ∈ st.eliminated → x ∈ (bulkGo gc gi an pm i rows st).eliminated)
      ∧ (∀ x, x ∈ st.ungate → x ∈ (bulkGo gc gi an pm i rows st).ungate)
      ∧ (∀ x, x ∈ st.buy → x ∈ (bulkGo gc gi an pm i rows st).buy) := by
  induction rows with
  | nil => intro i st; exact ⟨fun x h => h, fun x h => h, fun x h => h⟩
  | cons r rs ih =>
    intro i st
    have hstep := bulkStep_buckets_mono gc gi an pm i r st
    have hrest := ih (i + 1) (bulkStep gc gi an pm i r st)
    exact ⟨fun x h => hrest.1 x (hstep.1 x h),
           fun x h => hrest.2.1 x (hstep.2.1 x h),
           fun x h => hrest.2.2 x (hstep.2.2 x h)⟩

/-- Recording is preserved by the rest of the loop. -/
theorem bulkGo_recorded_mono {Row : Type} (gc : Row → Option ℚ)
    (gi : Row → String) (an : Row → Except String AnalysisOut) (pm : ℚ)
    (rows : List Row) (i : Nat) (st : BulkState) (k : Nat)
    (h : rowRecorded k st) : rowRecorded k (bulkGo gc gi an pm i rows st) := by
  have hm := bulkGo_buckets_mono gc gi an pm rows i st
  rcases h with ⟨s, hs⟩ | ⟨o, ho⟩ | ⟨o, ho⟩
  · exact Or.inl ⟨s, hm.1 _ hs⟩
  · exact Or.inr (Or.inl ⟨o, hm.2.1 _ ho⟩)
  · exact Or.inr (Or.inr ⟨o, hm.2.2 _ ho⟩)

/-- Every row the loop visits ends up recorded in some bucket. -/
theorem bulkGo_records {Row : Type} (gc : Row → Option ℚ)
    (gi : Row → String) (an : Row → Except String AnalysisOut) (pm : ℚ)
    (rows : List Row) :
    ∀ (i : Nat) (st : BulkState) (k : Nat), k < rows.length →
      rowRecorded (i + k) (bulkGo gc gi an pm i rows st) := by
  induction rows with
  | nil => intro i st k hk; exact absurd hk (by simp)
  | cons r rs ih =>
    intro i st k hk
    cases k with
    | zero =>
      show rowRecorded i (bulkGo gc gi an pm (i + 1) rs (bulkStep gc gi an pm i r st))
      exact bulkGo_recorded_mono gc gi an pm rs (i + 1) _ i
        (bulkStep_records gc gi an pm i r st)
    | succ k2 =>
      have hk2 : k2 < rs.length := by simpa using Nat.lt_of_succ_lt_succ hk
      have := ih (i + 1) (bulkStep gc gi an pm i r st) k2 hk2
      show rowRecorded (i + (k2 + 1)) (bulkGo gc gi an pm (i + 1) rs (bulkStep gc gi an pm i r st))
      have harith : i + (k2 + 1) = (i + 1) + k2 := by omega
      rw [harith]
      exact this

/-- A row whose analysis raises is recorded in the eliminated bucket with
the raised message as its reason. -/
theorem bulkGo_error_elim {Row : Type} (gc : Row → Option ℚ)
    (gi : Row → String) (an : Row → Except String AnalysisOut) (pm : ℚ)
    (rows : List Row) :
    ∀ (i : Nat) (st : BulkState) (j : Nat) (hj : j < rows.length) (msg : String),
      (gc (rows.get ⟨j, hj⟩)).isSome = true →
      gi (rows.get ⟨j, hj⟩) ≠ "" →
      an (rows.get ⟨j, hj⟩) = .error msg →
      (i + j, msg) ∈ (bulkGo gc gi an pm i rows st).eliminated := by
  induction rows with
  | nil => intro i st j hj; exact absurd hj (by simp)
  | cons r rs ih =>
    intro i st j hj msg hc hi he
    cases j with
    | zero =>
      show (i + 0, msg) ∈ (bulkGo gc gi an pm (i + 1) rs (bulkStep gc gi an pm i r st)).eliminated
      have hmem : (i, msg) ∈ (bulkStep gc gi an pm i r st).eliminated := by
        obtain ⟨c, hcv⟩ := Option.isSome_iff_exists.mp hc
        unfold bulkStep
        simp only [List.get] at hcv hi he
        rw [hcv]
        simp [he, hi]
      have := (bulkGo_buckets_mono gc gi an pm rs (i + 1) (bulkStep gc gi an pm i r st)).1 _ hmem
      simpa using this
    | succ j2 =>
      have hj2 : j2 < rs.length := by simpa using Nat.lt_of_succ_lt_succ hj
      have := ih (i + 1) (bulkStep gc gi an pm i r st) j2 hj2 msg (by simpa using hc)
        (by simpa using hi) (by simpa using he)
      show (i + (j2 + 1), msg) ∈ (bulkGo gc gi an pm (i + 1) rs (bulkStep gc gi an pm i r st)).eliminated
      have harith : i + (j2 + 1) = (i + 1) + j2 := by omega
      rw [harith]
      exact this

/-- C8: when a row's analysis raises an error, the failure is recorded for
that row in the eliminated bucket with its reason, and every row of the
batch is still recorded in a bucket — a partial-row failure never aborts
the rest of the batch. -/
theorem bulk_row_failure_recorded {Row : Type} (gc : Row → Option ℚ)
    (gi : Row → String) (an : Row → Except String AnalysisOut) (pm : ℚ)
    (rows : List Row) (j : Nat) (hj : j < rows.length) (msg : String)
    (hc : (gc (rows.get ⟨j, hj⟩)).isSome = true)
    (hi : gi (rows.get ⟨j, hj⟩) ≠ "")
    (he : an (rows.get ⟨j, hj⟩) = .error msg) :
    (j, msg) ∈ (processBulk gc gi an pm rows).eliminated
    ∧ ∀ k, k < rows.length → rowRecorded k (processBulk gc gi an pm rows) := by
  constructor
  · have := bulkGo_error_elim gc gi an pm rows 0 emptyBulkState j hj msg hc hi he
    simpa using this
  · intro k hk
    have := bulkGo_records gc gi an pm rows 0 emptyBulkState k hk
    simpa using this

/-- Witness for `bulk_row_failure_recorded`: a one-row batch whose
analysis raises `boom` records `(0, boom)` in the eliminated bucket. -/
theorem bulk_row_failure_recorded_witness :
    (0, "boom") ∈ (processBulk (fun _ : Unit => some (2 : ℚ))
        (fun _ => "B00TESTASIN") (fun _ => Except.error "boom") 3 [()]).eliminated
    ∧ rowRecorded 0 (processBulk (fun _ : Unit => some (2 : ℚ))
        (fun _ => "B00TESTASIN") (fun _ => Except.error "boom") 3 [()]) := by
  have h := bulk_row_failure_recorded (fun _ : Unit => some (2 : ℚ))
    (fun _ => "B00TESTASIN") (fun _ => Except.error "boom") 3 [()] 0 (by norm_num)
    "boom" rfl (by decide) rfl
  exact ⟨h.1, h.2 0 (by norm_num)⟩


/-- The loop's seller update agrees with inserting the claim-side truthy
seller id. -/
theorem sellerStep_eq (okvs : List (String × JVal)) (seen : List JVal) :
    sellerStep okvs seen = insertSeen seen (claimTruthySeller (JVal.obj okvs)) := by
  simp only [sellerStep, claimTruthySeller]
  cases hsel : okvs.lookup "SellerId" with
  | none => simp [insertSeen]
  | some v =>
    cases ht : pyTruthy v with
    | false => simp [insertSeen, ht]
    | true =>
      cases hm : jmem v seen with
      | false => simp [insertSeen, ht, hm]
      | true => simp [insertSeen, ht, hm]

/-- The loop's price update agrees with appending the claim-side landed
price of the offer, when it has one. -/
theorem priceStep_eq (okvs : List (String × JVal)) (prices : List ℚ) :
    priceStep okvs prices = prices ++ (claimOfferPrice (JVal.obj okvs)).toList := by
  simp only [priceStep, claimOfferPrice]
  cases hlp : safe_get (JVal.obj okvs) ["ListingPrice", "Amount"] JVal.null with
  | null => simp [pyFloat]
  | num q =>
    cases hb : pyFloat (if pyTruthy (safe_get (JVal.obj okvs) ["Shipping", "Amount"] (JVal.num 0))
        then safe_get (JVal.obj okvs) ["Shipping", "Amount"] (JVal.num 0)
        else JVal.num 0) with
    | none => simp [pyFloat, hb]
    | some b => simp [pyFloat, hb]
  | str s => simp [pyFloat]
  | bool b2 =>
    cases hb : pyFloat (if pyTruthy (safe_get (JVal.obj okvs) ["Shipping", "Amount"] (JVal.num 0))
        then safe_get (JVal.obj okvs) ["Shipping", "Amount"] (JVal.num 0)
        else JVal.num 0) with
    | none => simp [pyFloat, hb]
    | some b => simp [pyFloat, hb]
  | arr xs => simp [pyFloat]
  | obj kvs2 => simp [pyFloat]

/-- Membership in a list extended on the right by one element. -/
theorem jmem_append (u v : JVal) (l : List JVal) :
    jmem u (l ++ [v]) = (jmem u l || JVal.beq u v) := by
  simp [jmem, List.any_append]

/-- Composing two filters filters by the conjunction. -/
theorem filterFilter_and (l : List JVal) (p q : JVal → Bool) :
    (l.filter p).filter q = l.filter (fun a => p a && q a) := by
  induction l with
  | nil => rfl
  | cons x xs ih =>
    cases hp : p x with
    | false => simp [List.filter_cons, hp, ih]
    | true =>
      cases hq : q x with
      | false => simp [List.filter_cons, hp, hq, ih]
      | true => simp [List.filter_cons, hp, hq, ih]

/-- The length of the first-occurrence seller accumulation equals the
incoming length plus the number of distinct not-yet-seen values. -/
theorem foldIns_length (vs : List JVal) :
    ∀ seen : List JVal,
      (foldIns seen vs).length =
        seen.length + (dedupKF (vs.filter (fun v => !(jmem v seen)))).length := by
  induction vs with
  | nil => intro seen; simp [foldIns, dedupKF]
  | cons v vs ih =>
    intro seen
    show (foldIns (insertSeen seen (some v)) vs).length = _
    simp only [insertSeen]
    cases hm : jmem v seen with
    | true =>
      rw [if_pos rfl]
      rw [ih seen]
      have hv : (!(jmem v seen)) = false := by rw [hm]; rfl
      simp [List.filter_cons, hv]
    | false =>
      rw [if_neg (by simp)]
      rw [ih (seen ++ [v])]
      have hf : vs.filter (fun u => !(jmem u (seen ++ [v]))) =
          (vs.filter (fun u => !(jmem u seen))).filter (fun u => !(JVal.beq u v)) := by
        rw [filterFilter_and]
        apply List.filter_congr
        intro u _
        rw [jmem_append]
        cases jmem u seen <;> cases JVal.beq u v <;> rfl
      rw [hf]
      have hv : (!(jmem v seen)) = true := by rw [hm]; rfl
      simp only [List.filter_cons, hv, if_true]
      simp only [dedupKF, List.length_append, List.length_cons, List.length_nil]
      omega

/-- The loop's seller accumulation is the fold of insertions over the
claim-side truthy seller ids. -/
theorem sellerAccum_eq_foldIns (offs : List JVal) :
    ∀ seen : List JVal,
      sellerAccum seen offs = foldIns seen (offs.filterMap claimTruthySeller) := by
  induction offs with
  | nil => intro seen; rfl
  | cons off rest ih =>
    intro seen
    show sellerAccum (insertSeen seen (claimTruthySeller off)) rest = _
    cases hts : claimTruthySeller off with
    | none =>
      rw [List.filterMap_cons_none hts]
      simp only [insertSeen]
      exact ih seen
    | some v =>
      rw [List.filterMap_cons_some hts]
      show sellerAccum (insertSeen seen (some v)) rest =
        foldIns (insertSeen seen (some v)) (rest.filterMap claimTruthySeller)
      exact ih (insertSeen seen (some v))

/-- The offers loop, on a list of dict offers, computes exactly the
claim-side landed-price list and seller accumulation. -/
theorem offersLoop_spec (offs : List JVal) :
    ∀ (prices : List ℚ) (seen : List JVal), (∀ off ∈ offs, IsObj off) →
      offersLoop offs prices seen =
        some (prices ++ offs.filterMap claimOfferPrice, sellerAccum seen offs) := by
  induction offs with
  | nil => intro prices seen _; simp [offersLoop, sellerAccum]
  | cons off rest ih =>
    intro prices seen h
    have hobj := h off (List.mem_cons_self off rest)
    have hrest : ∀ o ∈ rest, IsObj o := fun o ho => h o (List.mem_cons_of_mem _ ho)
    cases off with
    | obj okvs =>
      show offersLoop rest (priceStep okvs prices) (sellerStep okvs seen) = _
      rw [ih _ _ hrest, priceStep_eq, sellerStep_eq]
      cases hcp : claimOfferPrice (JVal.obj okvs) with
      | none => simp [List.filterMap_cons_none hcp, sellerAccum, hcp]
      | some pr => simp [List.filterMap_cons_some hcp, sellerAccum, hcp, List.append_assoc]
    | null => exact hobj.elim
    | num q => exact hobj.elim
    | str s => exact hobj.elim
    | bool b => exact hobj.elim
    | arr xs => exact hobj.elim

/-- C7 amended: on a payload whose offers are dicts,
`extract_best_price_and_sellers` returns exactly the claim-side lowest
landed price (listing plus shipping, both converting, missing shipping 0)
and the number of distinct truthy SellerId values; an absent or empty
offers list yields `(none, 0)`. -/
theorem extract_best_price_matches_claim
    (d pk : List (String × JVal)) (offs : List JVal)
    (h1 : (d.lookup "payload").getD (JVal.obj []) = JVal.obj pk)
    (h2 : (pk.lookup "Offers").getD (JVal.arr []) = JVal.arr offs)
    (h3 : ∀ off ∈ offs, IsObj off) :
    extract_best_price_and_sellers d =
      some (claimBestPrice offs, claimSellerCount offs) := by
  simp only [extract_best_price_and_sellers]
  rw [h1]
  dsimp only
  rw [h2]
  dsimp only
  cases offs with
  | nil => simp [claimBestPrice, claimSellerCount, dedupKF]
  | cons o os =>
    simp only [List.isEmpty_cons, Bool.false_eq_true, if_false]
    rw [offersLoop_spec (o :: os) [] [] h3]
    dsimp only
    have hseen : (sellerAccum [] (o :: os)).length = claimSellerCount (o :: os) := by
      rw [sellerAccum_eq_foldIns, foldIns_length]
      simp [claimSellerCount, jmem]
    cases hfm : List.filterMap claimOfferPrice (o :: os) with
    | nil => simp [claimBestPrice, hfm, hseen]
    | cons x xs => simp [claimBestPrice, hfm, hseen]

/-- C7 counterexample: an offer whose SellerId is the empty string (a
present, distinct SellerId value) is not counted by the source — the code
returns 0 sellers where the claim's "number of distinct SellerId values
among the offers" is 1, because the loop's truthiness test skips falsy
seller ids. -/
theorem C7_counterexample :
    extract_best_price_and_sellers
        [("payload", JVal.obj [("Offers", JVal.arr
          [JVal.obj [("SellerId", JVal.str ""),
                     ("ListingPrice", JVal.obj [("Amount", JVal.num 5)])]])])] =
      some (some 5, 0)
    ∧ claimDistinctSellerCount
        [JVal.obj [("SellerId", JVal.str ""),
                   ("ListingPrice", JVal.obj [("Amount", JVal.num 5)])]] = 1 := by
  constructor
  · simp [extract_best_price_and_sellers, offersLoop, priceStep, sellerStep,
      safe_get, pyFloat, pyTruthy, jmem, listMin, List.lookup]
  · simp [claimDistinctSellerCount, claimSellerValuesAll, dedupKF, List.lookup]

/-- Witness for `extract_best_price_matches_claim`: a concrete two-offer
payload — landed prices 15 and 9, one distinct truthy seller — evaluates
to `(some 9, 1)` through the theorem. -/
theorem extract_best_price_matches_claim_witness :
    extract_best_price_and_sellers
        [("payload", JVal.obj [("Offers", JVal.arr
          [JVal.obj [("SellerId", JVal.str "A"),
                     ("ListingPrice", JVal.obj [("Amount", JVal.num 12)]),
                     ("Shipping", JVal.obj [("Amount", JVal.num 3)])],
           JVal.obj [("SellerId", JVal.str "A"),
                     ("ListingPrice", JVal.obj [("Amount", JVal.num 9)])]])])] =
      some (some 9, 1) := by
  have h := extract_best_price_matches_claim
    [("payload", JVal.obj [("Offers", JVal.arr
      [JVal.obj [("SellerId", JVal.str "A"),
                 ("ListingPrice", JVal.obj [("Amount", JVal.num 12)]),
                 ("Shipping", JVal.obj [("Amount", JVal.num 3)])],
       JVal.obj [("SellerId", JVal.str "A"),
                 ("ListingPrice", JVal.obj [("Amount", JVal.num 9)])]])])]
    [("Offers", JVal.arr
      [JVal.obj [("SellerId", JVal.str "A"),
                 ("ListingPrice", JVal.obj [("Amount", JVal.num 12)]),
                 ("Shipping", JVal.obj [("Amount", JVal.num 3)])],
       JVal.obj [("SellerId", JVal.str "A"),
                 ("ListingPrice", JVal.obj [("Amount", JVal.num 9)])]])]
    [JVal.obj [("SellerId", JVal.str "A"),
               ("ListingPrice", JVal.obj [("Amount", JVal.num 12)]),
               ("Shipping", JVal.obj [("Amount", JVal.num 3)])],
     JVal.obj [("SellerId", JVal.str "A"),
               ("ListingPrice", JVal.obj [("Amount", JVal.num 9)])]]
    rfl rfl (by
      intro off hoff
      simp only [List.mem_cons, List.not_mem_nil, or_false] at hoff
      rcases hoff with rfl | rfl <;> exact trivial)
  rw [h]
  have hbp : claimBestPrice
      [JVal.obj [("SellerId", JVal.str "A"),
                 ("ListingPrice", JVal.obj [("Amount", JVal.num 12)]),
                 ("Shipping", JVal.obj [("Amount", JVal.num 3)])],
       JVal.obj [("SellerId", JVal.str "A"),
                 ("ListingPrice", JVal.obj [("Amount", JVal.num 9)])]] = some 9 := by
    simp [claimBestPrice, claimOfferPrice, safe_get, pyFloat, pyTruthy, listMin,
      List.lookup, List.filterMap_cons, min_def]
    norm_num
  have hsc : claimSellerCount
      [JVal.obj [("SellerId", JVal.str "A"),
                 ("ListingPrice", JVal.obj [("Amount", JVal.num 12)]),
                 ("Shipping", JVal.obj [("Amount", JVal.num 3)])],
       JVal.obj [("SellerId", JVal.str "A"),
                 ("ListingPrice", JVal.obj [("Amount", JVal.num 9)])]] = 1 := by
    simp [claimSellerCount, claimTruthySeller, pyTruthy, dedupKF, jmem, JVal.beq,
      List.lookup, List.filterMap_cons]
  rw [hbp, hsc]
